import Mathlib

/-!
# Shallow embedding of the tersa canvas graph engine

This file embeds the graph-editing engine of the canvas component
(`components/canvas.tsx`): the in-memory node/edge model, the connection
validator with its depth-first cycle check, the node lifecycle operations
(add, duplicate, copy/paste), the clipboard paste resolution, and the
debounced persistence coordinator.  Positions are modelled over `ℚ`
(JavaScript numbers, no claim here depends on rounding), the `nanoid()`
id generator is modelled as an explicitly supplied fresh identifier, and
asynchronous outcomes (clipboard read, file upload) are modelled as
explicit input data.  The `@xyflow/react` helpers used by the component
(`getOutgoers`, `applyNodeChanges`, `applyEdgeChanges`, `updateNode`,
`screenToFlowPosition`) are embedded following their library semantics.
-/

namespace Tersa

/-- A position in logical (pan/zoom independent) graph coordinates. -/
structure XYPosition where
  x : ℚ
  y : ℚ
deriving DecidableEq, Repr

/-- Kind-specific node payload.  The engine treats it as opaque; the only
payload it ever constructs itself is the image content written by the
clipboard image paste (`{url, type, name}`). -/
inductive NodeData where
  | none
  | imageContent (url ty name : String)
deriving DecidableEq, Repr

/-- A canvas node.  `type` is the node kind tag (`node.type` may be absent
in `@xyflow/react`, hence `Option`).  Presentation-only fields of the
library node object (`origin`, `measured`, ...) are not modelled; no
behaviour embedded here reads them. -/
structure Node where
  id : String
  type : Option String
  position : XYPosition
  data : NodeData
  selected : Bool
deriving DecidableEq, Repr

/-- A canvas edge.  The component creates edges with `type = "animated"`
(committed connections) or `type = "temporary"` (drag placeholders). -/
structure Edge where
  id : String
  source : String
  target : String
  type : Option String
deriving DecidableEq, Repr

/-- Candidate connection as passed to `isValidConnection`
(`source`/`target` are nullable in the library). -/
structure FlowConnection where
  source : Option String
  target : Option String
deriving DecidableEq, Repr

/-- Connection as delivered to `onConnect` (both endpoints present). -/
structure ConnectParams where
  source : String
  target : String
deriving DecidableEq, Repr

/-- `getOutgoers(node, nodes, edges)` from `@xyflow/react`: the nodes that
are the target of some edge whose source is `node`. -/
def getOutgoers (n : Node) (nodes : List Node) (edges : List Edge) : List Node :=
  nodes.filter (fun m => edges.any (fun e => e.source == n.id && e.target == m.id))

/-- Modelled from the spec: the kind-compatibility predicate
`isValidSourceTarget` lives in `lib/xyflow.ts`, which is not among the
provided sources.  Per §4.2 of the spec and the canvas source comment
("Prevent connecting audio nodes to anything except transcribe nodes"),
an `audio` source may only feed a `transcribe` target; every other pair
is compatible. -/
def isValidSourceTarget (source target : Node) : Bool :=
  if source.type == some "audio" then target.type == some "transcribe" else true

/-- One step of the inner `for (const outgoer of getOutgoers(...))` loop of
`hasCycle`: test each outgoer for a direct hit on `connection.source`,
otherwise recurse through `rec` (the DFS on that outgoer), threading the
mutated `visited` set. -/
def hasCycleStep (rec : Node → List String → Bool × List String) (src : Option String) :
    List Node → List String → Bool × List String
  | [], visited => (false, visited)
  | o :: rest, visited =>
    if some o.id == src then (true, visited)
    else
      match rec o visited with
      | (true, v) => (true, v)
      | (false, v) => hasCycleStep rec src rest v

/-- The recursive `hasCycle` closure of `isValidConnection`, lines 362-374
of the canvas source: depth-first search from `node` over the outgoing
edges of the *whole* current edge list, with a shared mutable visited
set, returning true iff `connection.source` is reached.  The JavaScript
recursion terminates because `visited` grows; the embedding makes that
explicit with a fuel argument (one unit per newly visited node, so
`nodes.length + 1` units always suffice). -/
def hasCycleAux (src : Option String) (nodes : List Node) (edges : List Edge) :
    Nat → Node → List String → Bool × List String
  | 0, _, visited => (false, visited)
  | fuel + 1, node, visited =>
    if node.id ∈ visited then (false, visited)
    else
      hasCycleStep (hasCycleAux src nodes edges fuel) src
        (getOutgoers node nodes edges) (node.id :: visited)

/-- `hasCycle(target)` as called by `isValidConnection` (fresh visited set
on every call). -/
def hasCycle (src : Option String) (nodes : List Node) (edges : List Edge) (node : Node) : Bool :=
  (hasCycleAux src nodes edges (nodes.length + 1) node []).1

/-- `isValidConnection` (canvas source lines 338-383): reject when the
source kind may not feed the target kind, when the target is missing or
equal to the source (self-loop), or when the DFS from the target reaches
the source (accepting would close a cycle). -/
def isValidConnection (conn : FlowConnection) (nodes : List Node) (edges : List Edge) : Bool :=
  let target := nodes.find? (fun node => some node.id == conn.target)
  let sourceOk : Bool :=
    match conn.source with
    | Option.none => true
    | some s =>
      match nodes.find? (fun node => node.id == s), target with
      | some source, some tgt => isValidSourceTarget source tgt
      | _, _ => false
  if !sourceOk then false
  else
    match target with
    | Option.none => false
    | some tgt =>
      if some tgt.id == conn.source then false
      else !hasCycle conn.source nodes edges tgt

/-- A node change as delivered to `onNodesChange` (the cases relevant to
the graph model: removal, selection update, position update). -/
inductive NodeChange where
  | remove (id : String)
  | select (id : String) (sel : Bool)
  | move (id : String) (pos : XYPosition)
deriving DecidableEq, Repr

/-- An edge change as delivered to `onEdgesChange`. -/
inductive EdgeChange where
  | remove (id : String)
deriving DecidableEq, Repr

/-- `applyNodeChanges` from `@xyflow/react`: fold each change over the node
collection.  A removal filters the node out; selection and position
changes update the matching node in place.  The function receives and
returns only the node collection — it cannot touch edges. -/
def applyNodeChange (c : NodeChange) (nodes : List Node) : List Node :=
  match c with
  | .remove i => nodes.filter (fun n => !(n.id == i))
  | .select i s => nodes.map (fun n => if n.id == i then { n with selected := s } else n)
  | .move i p => nodes.map (fun n => if n.id == i then { n with position := p } else n)

/-- Folded form of `applyNodeChange`, as `applyNodeChanges(changes, nodes)`. -/
def applyNodeChanges (cs : List NodeChange) (nodes : List Node) : List Node :=
  cs.foldl (fun ns c => applyNodeChange c ns) nodes

/-- `applyEdgeChanges` from `@xyflow/react`, for the removal case. -/
def applyEdgeChange (c : EdgeChange) (edges : List Edge) : List Edge :=
  match c with
  | .remove i => edges.filter (fun e => !(e.id == i))

/-- Folded form of `applyEdgeChange`. -/
def applyEdgeChanges (cs : List EdgeChange) (edges : List Edge) : List Edge :=
  cs.foldl (fun es c => applyEdgeChange c es) edges

/-- The state held by the canvas component: the `nodes`, `edges` and
`copiedNodes` React state, plus two observable effects — whether the
debounced `save()` has been invoked (scheduled/reset) by the operation,
and how many failure toasts have been raised (`handleError`, the
notification collaborator, is only ever called from the save callback,
never from the gesture handlers embedded below). -/
structure CanvasState where
  nodes : List Node
  edges : List Edge
  copiedNodes : List Node
  saveScheduled : Bool
  toasts : Nat
deriving DecidableEq, Repr

/-- `save()`: invoking the debounced callback arms/resets the debounce
timer.  The timer/in-flight dynamics are modelled separately by
`SaveMachine`. -/
def scheduleSave (st : CanvasState) : CanvasState :=
  { st with saveScheduled := true }

/-- `handleNodesChange` (lines 211-221): apply the node changes and invoke
`save()`.  It calls `setNodes` only — the edge collection is untouched. -/
def handleNodesChange (changes : List NodeChange) (st : CanvasState) : CanvasState :=
  scheduleSave { st with nodes := applyNodeChanges changes st.nodes }

/-- `handleEdgesChange` (lines 223-233): apply the edge changes and invoke
`save()`. -/
def handleEdgesChange (changes : List EdgeChange) (st : CanvasState) : CanvasState :=
  scheduleSave { st with edges := applyEdgeChanges changes st.edges }

/-- `handleConnect` (lines 235-247): append a new edge
`{id: nanoid(), type: 'animated', ...connection}` and invoke `save()`.
The generated id is supplied as `newId`. -/
def handleConnect (newId : String) (c : ConnectParams) (st : CanvasState) : CanvasState :=
  scheduleSave { st with edges := st.edges ++ [⟨newId, c.source, c.target, some "animated"⟩] }

/-- The options record passed to `addNode`; fields spread over the new
node's defaults when present. -/
structure AddNodeOptions where
  data : NodeData
  position : Option XYPosition
  selected : Option Bool
deriving DecidableEq, Repr

/-- `addNode` (lines 249-273): build a node with the generated id, the
given kind, `options.data`, position defaulting to `{x: 0, y: 0}`, the
remaining options spread over the defaults; append it and invoke
`save()` (the analytics event is fire-and-forget and not modelled). -/
def addNode (newId : String) (ty : String) (opts : AddNodeOptions) (st : CanvasState) :
    CanvasState :=
  scheduleSave { st with nodes := st.nodes ++
    [{ id := newId, type := some ty, position := opts.position.getD ⟨0, 0⟩,
       data := opts.data, selected := opts.selected.getD false }] }

/-- `updateNode(id, {selected: b})` from `@xyflow/react`: merge the partial
update into every node whose id matches. -/
def updateNodeSelected (id : String) (sel : Bool) (st : CanvasState) : CanvasState :=
  { st with nodes := st.nodes.map (fun n => if n.id == id then { n with selected := sel } else n) }

/-- `duplicateNode` (lines 275-300): no-op unless `id` resolves to a node
with a kind; otherwise `addNode` with the original's fields, position
offset by `(+200, +200)` and `selected: true`, then (in the deferred
`setTimeout` callback, which runs after the synchronous part on the
single-threaded event loop) deselect the original and select the copy. -/
def duplicateNode (newId : String) (id : String) (st : CanvasState) : CanvasState :=
  match st.nodes.find? (fun n => n.id == id) with
  | Option.none => st
  | some node =>
    match node.type with
    | Option.none => st
    | some ty =>
      let st₁ := addNode newId ty
        { data := node.data,
          position := some ⟨node.position.x + 200, node.position.y + 200⟩,
          selected := some true } st
      updateNodeSelected newId true (updateNodeSelected id false st₁)

/-- `handleConnectStart` (lines 385-390): delete any drop nodes and
temporary edges left over from an aborted drag, and invoke `save()`. -/
def handleConnectStart (st : CanvasState) : CanvasState :=
  scheduleSave { st with
    nodes := st.nodes.filter (fun n => !(n.type == some "drop")),
    edges := st.edges.filter (fun e => !(e.type == some "temporary")) }

/-- `handleSelectAll` (lines 410-414): select every node.  It does not
invoke `save()`. -/
def handleSelectAll (st : CanvasState) : CanvasState :=
  { st with nodes := st.nodes.map (fun n => { n with selected := true }) }

/-- `handleCopy` (lines 416-421): capture the selected nodes, if any. -/
def handleCopy (st : CanvasState) : CanvasState :=
  let selectedNodes := st.nodes.filter (fun n => n.selected)
  if selectedNodes.isEmpty then st else { st with copiedNodes := selectedNodes }

/-- The current pan/zoom viewport, as returned by `getViewport()`. -/
structure Viewport where
  x : ℚ
  y : ℚ
  zoom : ℚ
deriving DecidableEq, Repr

/-- Modelled from the spec: `uploadFile` lives in `lib/upload.ts`, which is
not among the provided sources.  Per §6 the File-Storage collaborator
returns `{url, type}` on success; a failure is an exception, which the
embedding carries as `failed`. -/
inductive UploadOutcome where
  | ok (url ty : String)
  | failed (msg : String)
deriving DecidableEq, Repr

/-- One item of a successful `navigator.clipboard.read()`: its MIME type
list. -/
structure ClipboardEntry where
  types : List String
deriving DecidableEq, Repr

/-- Outcome of the Clipboard API probe in `handlePaste`: the API may be
unavailable (`navigator.clipboard.read` missing), the read may throw
(permission denied), or it yields a list of items. -/
inductive ClipboardResult where
  | unavailable
  | readError
  | items (l : List ClipboardEntry)
deriving DecidableEq, Repr

/-- The asynchronous environment a paste gesture runs in: whether the
focused element is a text input / textarea / contentEditable element,
the clipboard probe outcome, the upload outcome (consulted only when an
image is found), the viewport, and the window dimensions. -/
structure PasteEnv where
  focusEditable : Bool
  clipboard : ClipboardResult
  upload : UploadOutcome
  viewport : Viewport
  windowWidth : ℚ
  windowHeight : ℚ
deriving DecidableEq, Repr

/-- `screenToFlowPosition` from `@xyflow/react`: map a screen point into
logical coordinates under the given viewport. -/
def screenToFlowPosition (p : XYPosition) (v : Viewport) : XYPosition :=
  ⟨(p.x - v.x) / v.zoom, (p.y - v.y) / v.zoom⟩

/-- The viewport-centre computation of `handlePasteImage` (lines 431-435):
`-viewport.x / zoom + window.innerWidth / 2 / zoom` and likewise for y. -/
def pasteViewportCenter (env : PasteEnv) : XYPosition :=
  ⟨-env.viewport.x / env.viewport.zoom + env.windowWidth / 2 / env.viewport.zoom,
   -env.viewport.y / env.viewport.zoom + env.windowHeight / 2 / env.viewport.zoom⟩

/-- The clipboard file name built in `handlePaste` (lines 486-492):
`clipboard-image.` followed by the MIME subtype, defaulting to `png`. -/
def clipboardFileName (imageType : String) : String :=
  let ext := match imageType.splitOn "/" with
    | _ :: e :: _ => if e = "" then "png" else e
    | _ => "png"
  "clipboard-image." ++ ext

/-- `handlePasteImage` (lines 423-458): upload the file (outcome already in
the environment), then add an `image` node at the viewport centre with
`data.content = {url, type, name}`. -/
def handlePasteImage (imgId : String) (url ty name : String) (env : PasteEnv)
    (st : CanvasState) : CanvasState :=
  addNode imgId "image"
    { data := .imageContent url ty name,
      position := some (pasteViewportCenter env),
      selected := Option.none } st

/-- The copied-node fallback of `handlePaste` (lines 505-529): no-op when
nothing was copied, otherwise clone each copied node with a fresh id
(`pasteIds i` models the `nanoid()` of the i-th clone), offset
`(+200, +200)`, select the clones and deselect everything else.  It does
not invoke `save()`. -/
def pasteCopiedNodes (pasteIds : Nat → String) (st : CanvasState) : CanvasState :=
  if st.copiedNodes.isEmpty then st
  else
    let newNodes := st.copiedNodes.mapIdx (fun i n =>
      { n with id := pasteIds i,
               position := ⟨n.position.x + 200, n.position.y + 200⟩,
               selected := true })
    { st with nodes := st.nodes.map (fun n => { n with selected := false }) ++ newNodes }

/-- `type.startsWith('image/')`, evaluably: a prefix test on the
underlying character lists (the library's byte-based loop computes the
same Boolean). -/
def strStartsWith (s pre : String) : Bool :=
  pre.data.isPrefixOf s.data

/-- The image scan of `handlePaste` (lines 476-497): the first clipboard
item carrying an `image/*` type yields its first image type. -/
def clipboardImageType : ClipboardResult → Option String
  | .unavailable => Option.none
  | .readError => Option.none
  | .items l =>
    l.findSome? (fun item => (item.types.filter (fun ty => strStartsWith ty "image/")).head?)

/-- `handlePaste` (lines 460-530): return untouched when an editable
element has focus; otherwise try the clipboard image path (on success
add exactly one image node and return); any exception inside the `try`
(unavailable API, failed read, failed upload) is caught, logged with
`console.debug` — no toast — and control falls through to the
copied-node fallback, as it also does when no image type is present. -/
def handlePaste (imgId : String) (pasteIds : Nat → String) (env : PasteEnv)
    (st : CanvasState) : CanvasState :=
  if env.focusEditable then st
  else
    match clipboardImageType env.clipboard with
    | some ty =>
      match env.upload with
      | .ok url upTy => handlePasteImage imgId url upTy (clipboardFileName ty) env st
      | .failed _ => pasteCopiedNodes pasteIds st
    | Option.none => pasteCopiedNodes pasteIds st

/-- One `DataTransferItem` of a native paste event: its MIME type and the
file `getAsFile()` yields (with its name), when any. -/
structure PasteDataItem where
  type : String
  fileName : Option String
deriving DecidableEq, Repr

/-- `handlePasteEvent` (lines 573-600), the native-event fallback: return
untouched when the event target is editable or there is no clipboard
data; otherwise paste the first image item that yields a file (an
upload failure aborts without touching the graph — there is no
copied-node fallback on this path). -/
def handlePasteEvent (imgId : String) (targetEditable : Bool)
    (items : Option (List PasteDataItem)) (env : PasteEnv) (st : CanvasState) : CanvasState :=
  if targetEditable then st
  else
    match items with
    | Option.none => st
    | some l =>
      match l.findSome? (fun item =>
          if strStartsWith item.type "image/" then item.fileName else Option.none) with
      | Option.none => st
      | some name =>
        match env.upload with
        | .ok url ty => handlePasteImage imgId url ty name env st
        | .failed _ => st

/-- The persistence coordinator state (the `useDebouncedCallback` wrapper
plus the `saveState` flag of `save`, lines 187-209): an abstract snapshot
`version` bumped by every store mutation, whether the debounce timer is
armed, whether a save is in flight (`saveState.isSaving`), the number of
requests issued and not yet settled, the snapshot captured when the
in-flight request fired, and the versions successfully written. -/
structure SaveMachine where
  version : Nat
  timerArmed : Bool
  isSaving : Bool
  inFlight : Nat
  inFlightVersion : Nat
  saved : List Nat
deriving DecidableEq, Repr

/-- Events of the persistence coordinator: a store mutation (which calls
the debounced `save()`, arming/resetting the timer), the debounce timer
firing (the callback returns immediately — without re-arming — when a
save is already in flight, otherwise issues a request capturing the
*current* snapshot), and an in-flight request settling. -/
inductive SaveEvent where
  | mutate
  | timerFire
  | complete
deriving DecidableEq, Repr

/-- One transition of the persistence coordinator. -/
def saveStep (s : SaveMachine) : SaveEvent → SaveMachine
  | .mutate => { s with version := s.version + 1, timerArmed := true }
  | .timerFire =>
    if s.timerArmed then
      if s.isSaving then { s with timerArmed := false }
      else { s with timerArmed := false, isSaving := true,
                    inFlight := s.inFlight + 1, inFlightVersion := s.version }
    else s
  | .complete =>
    if s.isSaving then
      { s with isSaving := false, inFlight := s.inFlight - 1,
               saved := s.inFlightVersion :: s.saved }
    else s

/-- Run the coordinator from the initial state (nothing armed, nothing in
flight, nothing saved). -/
def runSave (events : List SaveEvent) : SaveMachine :=
  events.foldl saveStep ⟨0, false, false, 0, 0, []⟩

/-! ## Reachability, and correctness of the `hasCycle` depth-first search -/

/-- The persistent (committed) edges: everything except the `temporary`
drag placeholders. -/
def persistentEdges (edges : List Edge) : List Edge :=
  edges.filter (fun e => !(e.type == some "temporary"))

/-- A node with id `s` is reachable from `n` in at least one step, where a
step follows `getOutgoers` (an edge whose target node is present in the
node collection). -/
inductive Reaches (s : String) (nodes : List Node) (edges : List Edge) : Node → Prop where
  | hit {n m : Node} (hm : m ∈ getOutgoers n nodes edges) (hid : m.id = s) :
      Reaches s nodes edges n
  | step {n m : Node} (hm : m ∈ getOutgoers n nodes edges) (hr : Reaches s nodes edges m) :
      Reaches s nodes edges n

lemma getOutgoers_filter_subset (n : Node) (nodes : List Node) (edges : List Edge)
    (p : Edge → Bool) {m : Node} (hm : m ∈ getOutgoers n nodes (edges.filter p)) :
    m ∈ getOutgoers n nodes edges := by
  simp only [getOutgoers, List.mem_filter] at hm ⊢
  obtain ⟨hmem, hany⟩ := hm
  refine ⟨hmem, ?_⟩
  rw [List.any_eq_true] at hany ⊢
  obtain ⟨e, he, hcond⟩ := hany
  exact ⟨e, List.mem_of_mem_filter he, hcond⟩

/-- Reachability over a filtered edge list implies reachability over the
full edge list. -/
lemma Reaches.of_filter {s : String} {nodes : List Node} {edges : List Edge} {p : Edge → Bool}
    {n : Node} (h : Reaches s nodes (edges.filter p) n) : Reaches s nodes edges n := by
  induction h with
  | hit hm hid => exact .hit (getOutgoers_filter_subset _ _ _ _ hm) hid
  | step hm _ ih => exact .step (getOutgoers_filter_subset _ _ _ _ hm) ih

lemma getOutgoers_congr_id {a b : Node} (nodes : List Node) (edges : List Edge)
    (h : a.id = b.id) : getOutgoers a nodes edges = getOutgoers b nodes edges := by
  simp [getOutgoers, h]

/-- Number of node ids not yet in the visited set; the quantity the DFS
strictly decreases when it visits a new node. -/
def unvisitedCard (nodes : List Node) (visited : List String) : Nat :=
  ((nodes.map Node.id).toFinset \ visited.toFinset).card

lemma unvisitedCard_mono {nodes : List Node} {v v' : List String} (h : v ⊆ v') :
    unvisitedCard nodes v' ≤ unvisitedCard nodes v := by
  apply Finset.card_le_card
  intro x hx
  simp only [Finset.mem_sdiff, List.mem_toFinset] at hx ⊢
  exact ⟨hx.1, fun hc => hx.2 (h hc)⟩

lemma unvisitedCard_lt {nodes : List Node} {n : Node} {v : List String}
    (hn : n ∈ nodes) (hv : n.id ∉ v) :
    unvisitedCard nodes (n.id :: v) < unvisitedCard nodes v := by
  apply Finset.card_lt_card
  have hsub : (nodes.map Node.id).toFinset \ (n.id :: v).toFinset
      ⊆ (nodes.map Node.id).toFinset \ v.toFinset := by
    intro x hx
    simp only [Finset.mem_sdiff, List.mem_toFinset, List.mem_cons] at hx ⊢
    exact ⟨hx.1, fun hc => hx.2 (Or.inr hc)⟩
  rw [Finset.ssubset_iff_of_subset hsub]
  refine ⟨n.id, ?_, ?_⟩
  · simp only [Finset.mem_sdiff, List.mem_toFinset]
    exact ⟨List.mem_map_of_mem _ hn, hv⟩
  · simp [Finset.mem_sdiff, List.mem_toFinset]

lemma unvisitedCard_le_length (nodes : List Node) : unvisitedCard nodes [] ≤ nodes.length := by
  unfold unvisitedCard
  simp only [List.toFinset_nil, Finset.sdiff_empty]
  calc (nodes.map Node.id).toFinset.card
      ≤ (nodes.map Node.id).length := List.toFinset_card_le _
    _ = nodes.length := by simp

/-- If the DFS at some fuel returns true, the connection source really is
reachable from the start node (soundness of `hasCycle`). -/
lemma hasCycleAux_true_reaches (s : String) (nodes : List Node) (edges : List Edge) :
    ∀ (fuel : Nat) (n : Node) (visited : List String),
      (hasCycleAux (some s) nodes edges fuel n visited).1 = true →
      Reaches s nodes edges n := by
  intro fuel
  induction fuel with
  | zero => intro n visited h; simp [hasCycleAux] at h
  | succ fuel ih =>
    intro n visited h
    simp only [hasCycleAux] at h
    by_cases hv : n.id ∈ visited
    · rw [if_pos hv] at h; simp at h
    · rw [if_neg hv] at h
      have key : ∀ (l : List Node) (vis : List String),
          (∀ m ∈ l, m ∈ getOutgoers n nodes edges) →
          (hasCycleStep (hasCycleAux (some s) nodes edges fuel) (some s) l vis).1 = true →
          Reaches s nodes edges n := by
        intro l
        induction l with
        | nil => intro vis _ hfalse; simp [hasCycleStep] at hfalse
        | cons o rest ihl =>
          intro vis hsub h1
          simp only [hasCycleStep] at h1
          by_cases ho : (some o.id == (some s : Option String)) = true
          · have hid : o.id = s := by simpa using ho
            exact Reaches.hit (hsub o (List.mem_cons_self o rest)) hid
          · rw [if_neg ho] at h1
            rcases hrec : hasCycleAux (some s) nodes edges fuel o vis with ⟨b, v⟩
            rw [hrec] at h1
            cases b with
            | true =>
              have hro : Reaches s nodes edges o := ih o vis (by rw [hrec])
              exact Reaches.step (hsub o (List.mem_cons_self o rest)) hro
            | false =>
              exact ihl v (fun m hm => hsub m (List.mem_cons_of_mem _ hm)) h1
      exact key (getOutgoers n nodes edges) (n.id :: visited) (fun m hm => hm) h

/-- The closedness carried by a completed (false) DFS: every node freshly
visited between `V` and `V'` has all its outgoers inside `V'` and none
of them is the connection source. -/
def NewClosed (s : String) (nodes : List Node) (edges : List Edge) (V V' : List String) : Prop :=
  ∀ v ∈ nodes, v.id ∈ V' → v.id ∉ V →
    ∀ o ∈ getOutgoers v nodes edges, o.id ≠ s ∧ o.id ∈ V'

lemma NewClosed.trans {s : String} {nodes : List Node} {edges : List Edge}
    {V V₁ V₂ : List String} (h₁ : NewClosed s nodes edges V V₁)
    (h₂ : NewClosed s nodes edges V₁ V₂) (hsub : V₁ ⊆ V₂) :
    NewClosed s nodes edges V V₂ := by
  intro v hv hmem hnot
  by_cases hv1 : v.id ∈ V₁
  · intro o ho
    obtain ⟨ha, hb⟩ := h₁ v hv hv1 hnot o ho
    exact ⟨ha, hsub hb⟩
  · exact h₂ v hv hmem hv1

/-- A false DFS run with sufficient fuel visits the start node and leaves
the freshly visited region closed (the completeness invariant). -/
lemma hasCycleAux_false_closed (s : String) (nodes : List Node) (edges : List Edge) :
    ∀ (fuel : Nat) (n : Node) (visited v' : List String),
      n ∈ nodes → unvisitedCard nodes visited < fuel →
      hasCycleAux (some s) nodes edges fuel n visited = (false, v') →
      visited ⊆ v' ∧ n.id ∈ v' ∧ NewClosed s nodes edges visited v' := by
  intro fuel
  induction fuel with
  | zero =>
    intro n visited v' _ hlt _
    exact absurd hlt (Nat.not_lt_zero _)
  | succ fuel ih =>
    intro n visited v' hn hlt heq
    simp only [hasCycleAux] at heq
    by_cases hv : n.id ∈ visited
    · rw [if_pos hv, Prod.mk.injEq] at heq
      obtain ⟨-, rfl⟩ := heq
      exact ⟨fun x hx => hx, hv, fun v _ hmem hnot => absurd hmem hnot⟩
    · rw [if_neg hv] at heq
      have hlt1 : unvisitedCard nodes (n.id :: visited) < fuel := by
        have hdec := unvisitedCard_lt hn hv
        omega
      have key : ∀ (l : List Node), (∀ m ∈ l, m ∈ nodes) →
          ∀ (vis w : List String), unvisitedCard nodes vis < fuel →
          hasCycleStep (hasCycleAux (some s) nodes edges fuel) (some s) l vis = (false, w) →
          vis ⊆ w ∧ (∀ m ∈ l, m.id ≠ s ∧ m.id ∈ w) ∧ NewClosed s nodes edges vis w := by
        intro l
        induction l with
        | nil =>
          intro _ vis w _ heq1
          simp only [hasCycleStep, Prod.mk.injEq] at heq1
          obtain ⟨-, rfl⟩ := heq1
          exact ⟨fun x hx => hx, by simp, fun v _ hmem hnot => absurd hmem hnot⟩
        | cons o rest ihl =>
          intro hsub vis w hltv heq1
          simp only [hasCycleStep] at heq1
          by_cases ho : (some o.id == (some s : Option String)) = true
          · rw [if_pos ho, Prod.mk.injEq] at heq1
            exact absurd heq1.1 (by simp)
          · rw [if_neg ho] at heq1
            rcases hrec : hasCycleAux (some s) nodes edges fuel o vis with ⟨b, v₁⟩
            rw [hrec] at heq1
            cases b with
            | true =>
              rw [Prod.mk.injEq] at heq1
              exact absurd heq1.1 (by simp)
            | false =>
              obtain ⟨hsub1, hoid, hcl1⟩ :=
                ih o vis v₁ (hsub o (List.mem_cons_self o rest)) hltv hrec
              have hlt2 : unvisitedCard nodes v₁ < fuel :=
                lt_of_le_of_lt (unvisitedCard_mono hsub1) hltv
              obtain ⟨hsub2, hrest, hcl2⟩ :=
                ihl (fun m hm => hsub m (List.mem_cons_of_mem _ hm)) v₁ w hlt2 heq1
              have hos : o.id ≠ s := fun hcon => ho (by simp [hcon])
              refine ⟨fun x hx => hsub2 (hsub1 hx), ?_, NewClosed.trans hcl1 hcl2 hsub2⟩
              intro m hm
              rcases List.mem_cons.mp hm with rfl | hm'
              · exact ⟨hos, hsub2 hoid⟩
              · exact hrest m hm'
      obtain ⟨hsubv, houts, hcl⟩ := key (getOutgoers n nodes edges)
        (fun m hm => List.mem_of_mem_filter hm) (n.id :: visited) v' hlt1 heq
      refine ⟨fun x hx => hsubv (List.mem_cons_of_mem _ hx),
        hsubv (List.mem_cons_self _ _), ?_⟩
      intro v hvnodes hmem hnot
      by_cases hid : v.id = n.id
      · rw [getOutgoers_congr_id nodes edges hid]
        exact fun o ho => houts o ho
      · exact hcl v hvnodes hmem (fun hc => (List.mem_cons.mp hc).elim hid hnot)

/-- No node whose id lies in a closed visited set reaches the source. -/
lemma reaches_false_of_closed {s : String} {nodes : List Node} {edges : List Edge}
    {V : List String}
    (hcl : ∀ v ∈ nodes, v.id ∈ V → ∀ o ∈ getOutgoers v nodes edges, o.id ≠ s ∧ o.id ∈ V) :
    ∀ {n : Node}, Reaches s nodes edges n → n ∈ nodes → n.id ∈ V → False := by
  intro n hr
  induction hr with
  | hit hm hid =>
    intro hn hvV
    exact (hcl _ hn hvV _ hm).1 hid
  | step hm _ ihr =>
    intro hn hvV
    exact ihr (List.mem_of_mem_filter hm) (hcl _ hn hvV _ hm).2

/-- Completeness of the cycle check: if the source is reachable from the
start node, `hasCycle` detects it. -/
lemma hasCycle_true_of_reaches {s : String} {nodes : List Node} {edges : List Edge} {n : Node}
    (hn : n ∈ nodes) (hr : Reaches s nodes edges n) :
    hasCycle (some s) nodes edges n = true := by
  by_contra hb
  have hfalse : hasCycle (some s) nodes edges n = false := by
    cases h : hasCycle (some s) nodes edges n
    · rfl
    · exact absurd h hb
  unfold hasCycle at hfalse
  rcases heq : hasCycleAux (some s) nodes edges (nodes.length + 1) n [] with ⟨b, v'⟩
  rw [heq] at hfalse
  cases b with
  | true => exact absurd hfalse (by simp)
  | false =>
    have hlt : unvisitedCard nodes [] < nodes.length + 1 :=
      Nat.lt_succ_of_le (unvisitedCard_le_length nodes)
    obtain ⟨-, hnv, hcl⟩ :=
      hasCycleAux_false_closed s nodes edges (nodes.length + 1) n [] v' hn hlt heq
    have hcl' : ∀ v ∈ nodes, v.id ∈ v' →
        ∀ o ∈ getOutgoers v nodes edges, o.id ≠ s ∧ o.id ∈ v' :=
      fun v hv hmem => hcl v hv hmem (List.not_mem_nil _)
    exact reaches_false_of_closed hcl' hr hn hnv

/-- Soundness of the cycle check, in corollary form. -/
lemma reaches_of_hasCycle_true {s : String} {nodes : List Node} {edges : List Edge} {n : Node}
    (h : hasCycle (some s) nodes edges n = true) : Reaches s nodes edges n :=
  hasCycleAux_true_reaches s nodes edges (nodes.length + 1) n [] h

/-! ## Claim C1 — cycle prevention -/

/-- C1: for every graph state in which a directed path of persistent edges
already leads from the node resolved by `t` to a node with id `s`, every
candidate connection with source `s` and target `t` is rejected by
`isValidConnection` (accepting would close a cycle). -/
theorem C1_isValidConnection_rejects_persistent_cycle
    (nodes : List Node) (edges : List Edge) (s t : String) (nt : Node)
    (ht : nodes.find? (fun n => n.id == t) = some nt)
    (hpath : Reaches s nodes (persistentEdges edges) nt) :
    isValidConnection ⟨some s, some t⟩ nodes edges = false := by
  have hreach : Reaches s nodes edges nt := by
    have h := hpath
    unfold persistentEdges at h
    exact Reaches.of_filter h
  have hnt : nt ∈ nodes := List.mem_of_find?_eq_some ht
  have hcyc : hasCycle (some s) nodes edges nt = true := hasCycle_true_of_reaches hnt hreach
  rcases hsf : nodes.find? (fun node => node.id == s) with _ | src
  · simp [isValidConnection, hsf, ht]
  · rcases hval : isValidSourceTarget src nt with _ | _
    · simp [isValidConnection, hsf, ht, hval]
    · simp [isValidConnection, hsf, ht, hval, hcyc]

/-- Witness for C1, the spec's own scenario: after connecting image node
`A` to transcribe node `B`, the candidate `B → A` is rejected. -/
theorem C1_witness :
    isValidConnection ⟨some "B", some "A"⟩
      [⟨"A", some "image", ⟨0, 0⟩, .none, false⟩,
       ⟨"B", some "transcribe", ⟨0, 0⟩, .none, false⟩]
      [⟨"e1", "A", "B", some "animated"⟩] = false := by
  apply C1_isValidConnection_rejects_persistent_cycle
    [⟨"A", some "image", ⟨0, 0⟩, .none, false⟩,
     ⟨"B", some "transcribe", ⟨0, 0⟩, .none, false⟩]
    [⟨"e1", "A", "B", some "animated"⟩] "B" "A"
    ⟨"A", some "image", ⟨0, 0⟩, .none, false⟩ (by decide)
  have hm : (⟨"B", some "transcribe", ⟨0, 0⟩, .none, false⟩ : Node)
      ∈ getOutgoers ⟨"A", some "image", ⟨0, 0⟩, .none, false⟩
        [⟨"A", some "image", ⟨0, 0⟩, .none, false⟩,
         ⟨"B", some "transcribe", ⟨0, 0⟩, .none, false⟩]
        (persistentEdges [⟨"e1", "A", "B", some "animated"⟩]) := by decide
  exact Reaches.hit hm rfl

/-! ## Claim C3 — the cycle traversal does not exclude temporary edges -/

/-- Counterexample to C3: with the only path from the candidate's target
`t` back to its source `s` consisting of one `temporary` edge (so no
persistent path exists), and the candidate passing the self-loop and
kind checks, `isValidConnection` still returns `false` — the traversal
follows temporary edges too, where the claim says they are excluded and
the connection is accepted. -/
theorem C3_counterexample :
    (¬ Reaches "s"
        [⟨"s", some "text", ⟨0, 0⟩, .none, false⟩, ⟨"t", some "text", ⟨0, 0⟩, .none, false⟩]
        (persistentEdges [⟨"e1", "t", "s", some "temporary"⟩])
        ⟨"t", some "text", ⟨0, 0⟩, .none, false⟩) ∧
    isValidSourceTarget ⟨"s", some "text", ⟨0, 0⟩, .none, false⟩
      ⟨"t", some "text", ⟨0, 0⟩, .none, false⟩ = true ∧
    ("t" : String) ≠ "s" ∧
    isValidConnection ⟨some "s", some "t"⟩
      [⟨"s", some "text", ⟨0, 0⟩, .none, false⟩, ⟨"t", some "text", ⟨0, 0⟩, .none, false⟩]
      [⟨"e1", "t", "s", some "temporary"⟩] = false := by
  refine ⟨?_, by decide, by decide, by decide⟩
  intro h
  have hnil : persistentEdges [(⟨"e1", "t", "s", some "temporary"⟩ : Edge)] = [] := rfl
  rw [hnil] at h
  cases h with
  | hit hm _ => simp [getOutgoers] at hm
  | step hm _ => simp [getOutgoers] at hm

/-- C3 (amended): the cycle-check traversal inside `isValidConnection`
follows *all* outgoing edges, temporary ones included.  For every graph
in which no directed path over any edges leads from the candidate's
target back to its source, and the candidate passes the self-loop and
kind-compatibility checks, `isValidConnection` returns true. -/
theorem C3_amended_cycle_check_follows_all_edges
    (nodes : List Node) (edges : List Edge) (s t : String) (ns nt : Node)
    (hs : nodes.find? (fun n => n.id == s) = some ns)
    (ht : nodes.find? (fun n => n.id == t) = some nt)
    (hvalid : isValidSourceTarget ns nt = true)
    (hneq : nt.id ≠ s)
    (hnr : ¬ Reaches s nodes edges nt) :
    isValidConnection ⟨some s, some t⟩ nodes edges = true := by
  have hcyc : hasCycle (some s) nodes edges nt = false := by
    cases h : hasCycle (some s) nodes edges nt
    · rfl
    · exact absurd (reaches_of_hasCycle_true h) hnr
  simp [isValidConnection, hs, ht, hvalid, hcyc, hneq]

/-- Witness for the amended C3: a two-node graph with no edges at all
accepts the candidate. -/
theorem C3_amended_witness :
    isValidConnection ⟨some "s", some "t"⟩
      [⟨"s", some "text", ⟨0, 0⟩, .none, false⟩, ⟨"t", some "text", ⟨0, 0⟩, .none, false⟩]
      [] = true := by
  apply C3_amended_cycle_check_follows_all_edges
    [⟨"s", some "text", ⟨0, 0⟩, .none, false⟩, ⟨"t", some "text", ⟨0, 0⟩, .none, false⟩]
    [] "s" "t"
    ⟨"s", some "text", ⟨0, 0⟩, .none, false⟩ ⟨"t", some "text", ⟨0, 0⟩, .none, false⟩
    (by decide) (by decide) (by decide) (by decide)
  intro h
  cases h with
  | hit hm _ => simp [getOutgoers] at hm
  | step hm _ => simp [getOutgoers] at hm

/-! ## Claim C2 — node removal does not cascade to edges -/

/-- Counterexample to C2: applying a node-removal change through
`handleNodesChange` removes the node but leaves the edge collection
untouched, so an edge whose source was the removed node survives the
operation and dangles. -/
theorem C2_counterexample :
    (handleNodesChange [NodeChange.remove "A"]
        ⟨[⟨"A", some "text", ⟨0, 0⟩, .none, false⟩, ⟨"B", some "text", ⟨0, 0⟩, .none, false⟩],
         [⟨"e1", "A", "B", some "animated"⟩], [], false, 0⟩).nodes
      = [⟨"B", some "text", ⟨0, 0⟩, .none, false⟩] ∧
    (handleNodesChange [NodeChange.remove "A"]
        ⟨[⟨"A", some "text", ⟨0, 0⟩, .none, false⟩, ⟨"B", some "text", ⟨0, 0⟩, .none, false⟩],
         [⟨"e1", "A", "B", some "animated"⟩], [], false, 0⟩).edges
      = [⟨"e1", "A", "B", some "animated"⟩] ∧
    (handleNodesChange [NodeChange.remove "A"]
        ⟨[⟨"A", some "text", ⟨0, 0⟩, .none, false⟩, ⟨"B", some "text", ⟨0, 0⟩, .none, false⟩],
         [⟨"e1", "A", "B", some "animated"⟩], [], false, 0⟩).edges.any (fun e =>
      (handleNodesChange [NodeChange.remove "A"]
        ⟨[⟨"A", some "text", ⟨0, 0⟩, .none, false⟩, ⟨"B", some "text", ⟨0, 0⟩, .none, false⟩],
         [⟨"e1", "A", "B", some "animated"⟩], [], false, 0⟩).nodes.all
        (fun m => !(m.id == e.source))) = true := by
  decide

/-- C2 (amended): a node-removal change removes only the node —
`handleNodesChange` never modifies the edge collection, so edges
referencing the deleted node are *not* removed in the same operation;
they are removed only when a separate edge-removal change set is
applied through `handleEdgesChange`. -/
theorem C2_amended_removal_leaves_edges (changes : List NodeChange) (st : CanvasState) :
    (handleNodesChange changes st).edges = st.edges ∧
    (∀ i, applyNodeChanges [NodeChange.remove i] st.nodes
        = st.nodes.filter (fun n => !(n.id == i))) ∧
    (∀ cs, (handleEdgesChange cs st).nodes = st.nodes ∧
      ∀ i, applyEdgeChanges [EdgeChange.remove i] st.edges
        = st.edges.filter (fun e => !(e.id == i))) :=
  ⟨rfl, fun _ => rfl, fun _ => ⟨rfl, fun _ => rfl⟩⟩

/-! ## Claim C4 — the edge commit is a plain append, not idempotent -/

/-- Counterexample to C4: committing an edge with the same id twice yields
a different collection than committing it once — two edges carry the id. -/
theorem C4_counterexample :
    (handleConnect "e1" ⟨"A", "B"⟩ (handleConnect "e1" ⟨"A", "B"⟩ ⟨[], [], [], false, 0⟩)).edges
      ≠ (handleConnect "e1" ⟨"A", "B"⟩ ⟨[], [], [], false, 0⟩).edges ∧
    ((handleConnect "e1" ⟨"A", "B"⟩
        (handleConnect "e1" ⟨"A", "B"⟩ ⟨[], [], [], false, 0⟩)).edges.filter
      (fun e => e.id == "e1")).length = 2 := by
  decide

/-- C4 (amended): `handleConnect` appends unconditionally and never
deduplicates.  When the generated id is fresh (which `nanoid()` is
assumed to provide), exactly one edge carries it afterwards; committing
the same id a second time yields two edges with that id — the commit
itself is not idempotent. -/
theorem C4_amended_commit_appends (st : CanvasState) (c : ConnectParams) (newId : String)
    (hfresh : newId ∉ st.edges.map Edge.id) :
    ((handleConnect newId c st).edges.filter (fun e => e.id == newId)).length = 1 ∧
    ∀ c₂, ((handleConnect newId c₂ (handleConnect newId c st)).edges.filter
        (fun e => e.id == newId)).length = 2 := by
  have hfil : st.edges.filter (fun e => e.id == newId) = [] := by
    rw [List.filter_eq_nil_iff]
    intro e he hcon
    exact hfresh ((eq_of_beq hcon) ▸ List.mem_map_of_mem _ he)
  constructor
  · simp [handleConnect, scheduleSave, List.filter_append, hfil]
  · intro c₂
    simp [handleConnect, scheduleSave, List.filter_append, hfil]

/-- Witness for the amended C4: committing a fresh id into an empty
collection yields exactly one edge with that id. -/
theorem C4_witness :
    (("e9" : String) ∉ (([] : List Edge)).map Edge.id) ∧
    ((handleConnect "e9" ⟨"A", "B"⟩ ⟨[], [], [], false, 0⟩).edges.filter
        (fun e => e.id == "e9")).length = 1 :=
  ⟨by decide, (C4_amended_commit_appends ⟨[], [], [], false, 0⟩ ⟨"A", "B"⟩ "e9" (by decide)).1⟩

/-! ## Claim C5 — duplicateNode -/

/-- C5: for an id resolving to a node with a kind, `duplicateNode` appends
exactly one new node carrying the supplied fresh id, the original's kind
and data, the original's position offset by `(+200, +200)`, ending
selected while every node with the original id ends deselected; for an
id that does not resolve, the state is unchanged.  (`nanoid()` freshness
is the `hfresh` hypothesis.) -/
theorem C5_duplicateNode_spec (st : CanvasState) (newId dupId : String)
    (hfresh : newId ∉ st.nodes.map Node.id) :
    (st.nodes.find? (fun n => n.id == dupId) = Option.none →
      duplicateNode newId dupId st = st) ∧
    (∀ n : Node, st.nodes.find? (fun n => n.id == dupId) = some n →
      ∀ k, n.type = some k →
      (duplicateNode newId dupId st).nodes =
        st.nodes.map (fun m => if m.id == dupId then { m with selected := false } else m)
          ++ [{ id := newId, type := some k,
                position := ⟨n.position.x + 200, n.position.y + 200⟩,
                data := n.data, selected := true }]) := by
  constructor
  · intro h
    simp [duplicateNode, h]
  · intro n hfind k hk
    have hmem : n ∈ st.nodes := List.mem_of_find?_eq_some hfind
    have hid : n.id = dupId := by
      have h := List.find?_some hfind
      simpa using h
    have hdup_mem : dupId ∈ st.nodes.map Node.id := hid ▸ List.mem_map_of_mem _ hmem
    have hne : newId ≠ dupId := fun hcon => hfresh (hcon ▸ hdup_mem)
    simp only [duplicateNode, hfind, hk, addNode, scheduleSave, updateNodeSelected,
      Option.getD_some]
    rw [List.map_append, List.map_append, List.map_map]
    congr 1
    · apply List.map_congr_left
      intro m hm
      have hmne : m.id ≠ newId := fun hcon => hfresh (hcon ▸ List.mem_map_of_mem _ hm)
      by_cases hmd : m.id = dupId
      · simp [Function.comp, hmd, hne.symm]
      · simp [Function.comp, hmd, hmne]
    · simp [hne]

/-- Witness for C5: duplicating the single node of a one-node graph. -/
theorem C5_witness :
    (duplicateNode "b" "a" ⟨[⟨"a", some "text", ⟨1, 2⟩, .none, true⟩], [], [], false, 0⟩).nodes =
      ([⟨"a", some "text", ⟨1, 2⟩, .none, true⟩] : List Node).map
          (fun m => if m.id == "a" then { m with selected := false } else m)
        ++ [⟨"b", some "text", ⟨1 + 200, 2 + 200⟩, .none, true⟩] := by
  have h := (C5_duplicateNode_spec
      ⟨[⟨"a", some "text", ⟨1, 2⟩, .none, true⟩], [], [], false, 0⟩ "b" "a" (by decide)).2
      ⟨"a", some "text", ⟨1, 2⟩, .none, true⟩ (by decide) "text" rfl
  exact h

/-! ## Claim C6 — not every collection-changing operation schedules a save -/

/-- Counterexample to C6: `handleSelectAll` changes the node collection
(mass selection update) yet does not invoke the debounced `save()`. -/
theorem C6_counterexample :
    (handleSelectAll ⟨[⟨"a", some "text", ⟨0, 0⟩, .none, false⟩], [], [], false, 0⟩).nodes
      ≠ [⟨"a", some "text", ⟨0, 0⟩, .none, false⟩] ∧
    (handleSelectAll ⟨[⟨"a", some "text", ⟨0, 0⟩, .none, false⟩], [], [], false, 0⟩).saveScheduled
      = false := by
  decide

/-- C6 (amended): the change-set handlers, `handleConnect`, `addNode` and
`handleConnectStart` all schedule the debounced save, but
`handleSelectAll` and the copied-node branch of `handlePaste` mutate the
node collection without scheduling one. -/
theorem C6_amended_save_scheduling (st : CanvasState) :
    (∀ cs, (handleNodesChange cs st).saveScheduled = true) ∧
    (∀ cs, (handleEdgesChange cs st).saveScheduled = true) ∧
    (∀ i c, (handleConnect i c st).saveScheduled = true) ∧
    (∀ i ty opts, (addNode i ty opts st).saveScheduled = true) ∧
    (handleConnectStart st).saveScheduled = true ∧
    (handleSelectAll st).saveScheduled = st.saveScheduled ∧
    (∀ pids, (pasteCopiedNodes pids st).saveScheduled = st.saveScheduled) := by
  refine ⟨fun _ => rfl, fun _ => rfl, fun _ _ => rfl, fun _ _ _ => rfl, rfl, rfl, fun pids => ?_⟩
  unfold pasteCopiedNodes
  split <;> rfl

/-! ## Claim C7 — a timer firing during an in-flight save is dropped -/

/-- Counterexample to C7: mutate, fire (issues the save of snapshot 1),
mutate again, fire again while the save is in flight (the callback
returns: dropped, not re-armed), then the save settles.  Snapshot 2 was
never saved, and with the timer unarmed and nothing in flight it cannot
be without a further mutation — where the claim says the deferred save
is re-armed and eventually issued. -/
theorem C7_counterexample :
    (runSave [.mutate, .timerFire, .mutate, .timerFire, .complete]).saved = [1] ∧
    (runSave [.mutate, .timerFire, .mutate, .timerFire, .complete]).version = 2 ∧
    (runSave [.mutate, .timerFire, .mutate, .timerFire, .complete]).timerArmed = false ∧
    (runSave [.mutate, .timerFire, .mutate, .timerFire, .complete]).isSaving = false := by
  decide

/-- The invariant the guard of `save` maintains: at most one request in
flight, and the `isSaving` flag tracks it exactly. -/
def SaveInv (s : SaveMachine) : Prop :=
  s.inFlight ≤ 1 ∧ (s.isSaving = true ↔ s.inFlight = 1)

lemma saveStep_inv {s : SaveMachine} (h : SaveInv s) (e : SaveEvent) : SaveInv (saveStep s e) := by
  obtain ⟨h1, h2⟩ := h
  cases e with
  | mutate => exact ⟨h1, h2⟩
  | timerFire =>
    simp only [saveStep]
    by_cases ha : s.timerArmed = true
    · rw [if_pos ha]
      by_cases hs : s.isSaving = true
      · rw [if_pos hs]
        exact ⟨h1, h2⟩
      · rw [if_neg hs]
        have h0 : s.inFlight = 0 := by
          rcases Nat.lt_or_ge s.inFlight 1 with h | h
          · omega
          · exact absurd (h2.mpr (le_antisymm h1 h)) hs
        simp [SaveInv, h0]
    · rw [if_neg ha]
      exact ⟨h1, h2⟩
  | complete =>
    simp only [saveStep]
    by_cases hs : s.isSaving = true
    · rw [if_pos hs]
      have h1' : s.inFlight = 1 := h2.mp hs
      simp [SaveInv, h1']
    · rw [if_neg hs]
      exact ⟨h1, h2⟩

lemma foldl_saveStep_inv : ∀ (evs : List SaveEvent) (s : SaveMachine), SaveInv s →
    SaveInv (evs.foldl saveStep s) := by
  intro evs
  induction evs with
  | nil => intro s h; exact h
  | cons e rest ihe => intro s h; exact ihe _ (saveStep_inv h e)

/-- C7 (amended): at most one save request is ever in flight; but when the
debounce timer fires while a save is in flight the request is *dropped*
— the callback returns without issuing or re-arming — and once nothing
is armed or in flight, timer and completion events are no-ops, so the
dropped snapshot is saved again only after a further mutation re-arms
the debounce. -/
theorem C7_amended_save_machine :
    (∀ evs, (runSave evs).inFlight ≤ 1) ∧
    (∀ s : SaveMachine, s.timerArmed = true → s.isSaving = true →
        saveStep s .timerFire = { s with timerArmed := false }) ∧
    (∀ s : SaveMachine, s.timerArmed = false → s.isSaving = false →
        saveStep s .timerFire = s ∧ saveStep s .complete = s) := by
  refine ⟨?_, ?_, ?_⟩
  · intro evs
    have hinit : SaveInv ⟨0, false, false, 0, 0, []⟩ := by simp [SaveInv]
    exact (foldl_saveStep_inv evs _ hinit).1
  · intro s ha hs
    simp [saveStep, ha, hs]
  · intro s ha hs
    constructor <;> simp [saveStep, ha, hs]

/-- Witness for the amended C7: a concrete fire-while-saving transition
drops the request and only clears the timer. -/
theorem C7_witness :
    saveStep ⟨5, true, true, 1, 4, []⟩ SaveEvent.timerFire = ⟨5, false, true, 1, 4, []⟩ :=
  C7_amended_save_machine.2.1 ⟨5, true, true, 1, 4, []⟩ rfl rfl

/-! ## Claim C8 — clipboard image takes priority over copied nodes -/

/-- C8: when a paste gesture fires with focus outside editable elements,
the clipboard scan finds an image and the upload succeeds, exactly one
new `image` node is appended — positioned at the viewport's logical
centre, i.e. the image of the window centre under
`screenToFlowPosition` — and the internally copied nodes are not pasted
(the whole resulting state is the old one plus that single node). -/
theorem C8_paste_image_priority (imgId : String) (pasteIds : Nat → String)
    (env : PasteEnv) (st : CanvasState) (ty url upTy : String)
    (hfocus : env.focusEditable = false)
    (hclip : clipboardImageType env.clipboard = some ty)
    (hup : env.upload = .ok url upTy) :
    handlePaste imgId pasteIds env st =
      scheduleSave { st with nodes := st.nodes ++
        [{ id := imgId, type := some "image",
           position := pasteViewportCenter env,
           data := .imageContent url upTy (clipboardFileName ty),
           selected := false }] } ∧
    pasteViewportCenter env =
      screenToFlowPosition ⟨env.windowWidth / 2, env.windowHeight / 2⟩ env.viewport := by
  constructor
  · simp [handlePaste, hfocus, hclip, hup, handlePasteImage, addNode]
  · unfold pasteViewportCenter screenToFlowPosition
    rw [XYPosition.mk.injEq]
    constructor <;> ring

/-- Witness for C8: clipboard holding `image/png` beside an internal copy
selection pastes exactly the one image node. -/
theorem C8_witness :
    handlePaste "img" (fun _ => "p")
      ⟨false, .items [⟨["text/plain", "image/png"]⟩], .ok "u" "image/png", ⟨10, 20, 2⟩, 800, 600⟩
      ⟨[], [], [⟨"c", some "text", ⟨0, 0⟩, .none, true⟩], false, 0⟩ =
    scheduleSave
      { (⟨[], [], [⟨"c", some "text", ⟨0, 0⟩, .none, true⟩], false, 0⟩ : CanvasState) with
        nodes := ([] : List Node) ++
          [{ id := "img", type := some "image",
             position := pasteViewportCenter
               ⟨false, .items [⟨["text/plain", "image/png"]⟩], .ok "u" "image/png",
                ⟨10, 20, 2⟩, 800, 600⟩,
             data := .imageContent "u" "image/png" (clipboardFileName "image/png"),
             selected := false }] } :=
  (C8_paste_image_priority "img" (fun _ => "p")
    ⟨false, .items [⟨["text/plain", "image/png"]⟩], .ok "u" "image/png", ⟨10, 20, 2⟩, 800, 600⟩
    ⟨[], [], [⟨"c", some "text", ⟨0, 0⟩, .none, true⟩], false, 0⟩
    "image/png" "u" "image/png" rfl rfl rfl).1

/-! ## Claim C9 — clipboard/upload failure neither toasts nor leaves the graph unchanged -/

/-- Counterexample to C9: a failing clipboard read with copied nodes
present changes the graph (the copied nodes are pasted by the fallback)
and raises no toast — the claim says a toast is raised and the graph is
left unchanged. -/
theorem C9_counterexample :
    (handlePaste "i" (fun _ => "p") ⟨false, .readError, .ok "u" "t", ⟨0, 0, 1⟩, 800, 600⟩
        ⟨[], [], [⟨"c", some "text", ⟨0, 0⟩, .none, true⟩], false, 0⟩).nodes ≠ ([] : List Node) ∧
    (handlePaste "i" (fun _ => "p") ⟨false, .readError, .ok "u" "t", ⟨0, 0, 1⟩, 800, 600⟩
        ⟨[], [], [⟨"c", some "text", ⟨0, 0⟩, .none, true⟩], false, 0⟩).nodes.length = 1 ∧
    (handlePaste "i" (fun _ => "p") ⟨false, .readError, .ok "u" "t", ⟨0, 0, 1⟩, 800, 600⟩
        ⟨[], [], [⟨"c", some "text", ⟨0, 0⟩, .none, true⟩], false, 0⟩).toasts = 0 := by
  decide

/-- C9 (amended): a clipboard-read failure (and likewise an upload
failure) during paste creates no image node and raises no toast — the
error is swallowed and control falls through to the copied-node
fallback, which can change the graph when copied nodes exist; edges and
the toast count are unchanged in every case. -/
theorem C9_amended_failure_falls_back (imgId : String) (pasteIds : Nat → String)
    (env : PasteEnv) (st : CanvasState) :
    (env.focusEditable = false → env.clipboard = .readError →
      handlePaste imgId pasteIds env st = pasteCopiedNodes pasteIds st) ∧
    (∀ ty msg, env.focusEditable = false → clipboardImageType env.clipboard = some ty →
      env.upload = .failed msg →
      handlePaste imgId pasteIds env st = pasteCopiedNodes pasteIds st) ∧
    ((pasteCopiedNodes pasteIds st).toasts = st.toasts ∧
      (pasteCopiedNodes pasteIds st).edges = st.edges) := by
  refine ⟨?_, ?_, ?_⟩
  · intro hf hc
    simp [handlePaste, hf, hc, clipboardImageType]
  · intro ty msg hf hc hup
    simp [handlePaste, hf, hc, hup]
  · constructor <;> (unfold pasteCopiedNodes; split <;> rfl)

/-- Witness for the amended C9: the concrete failing-read paste equals the
copied-node fallback. -/
theorem C9_witness :
    handlePaste "i" (fun _ => "p") ⟨false, .readError, .ok "u" "t", ⟨0, 0, 1⟩, 800, 600⟩
      ⟨[], [], [⟨"c", some "text", ⟨0, 0⟩, .none, true⟩], false, 0⟩
    = pasteCopiedNodes (fun _ => "p")
        ⟨[], [], [⟨"c", some "text", ⟨0, 0⟩, .none, true⟩], false, 0⟩ :=
  (C9_amended_failure_falls_back "i" (fun _ => "p")
    ⟨false, .readError, .ok "u" "t", ⟨0, 0, 1⟩, 800, 600⟩
    ⟨[], [], [⟨"c", some "text", ⟨0, 0⟩, .none, true⟩], false, 0⟩).1 rfl rfl

/-! ## Claim C10 — paste is inert while an editable element has focus -/

/-- C10: when the focused element is a text input, textarea or
contentEditable element, both paste entry points return before touching
anything: the state — node and edge collections included — is exactly
unchanged, for every clipboard and copied-node content. -/
theorem C10_editable_focus_guard (imgId : String) (pasteIds : Nat → String)
    (env : PasteEnv) (items : Option (List PasteDataItem)) (st : CanvasState)
    (hfocus : env.focusEditable = true) :
    handlePaste imgId pasteIds env st = st ∧
    handlePasteEvent imgId true items env st = st := by
  constructor
  · simp [handlePaste, hfocus]
  · rfl

/-- Witness for C10: with an editable element focused, a clipboard image
and copied nodes are both ignored by either entry point. -/
theorem C10_witness :
    handlePaste "i" (fun _ => "p")
      ⟨true, .items [⟨["image/png"]⟩], .ok "u" "t", ⟨0, 0, 1⟩, 800, 600⟩
      ⟨[], [], [⟨"c", some "text", ⟨0, 0⟩, .none, true⟩], false, 0⟩
      = ⟨[], [], [⟨"c", some "text", ⟨0, 0⟩, .none, true⟩], false, 0⟩ ∧
    handlePasteEvent "i" true (some [⟨"image/png", some "f.png"⟩])
      ⟨true, .items [⟨["image/png"]⟩], .ok "u" "t", ⟨0, 0, 1⟩, 800, 600⟩
      ⟨[], [], [⟨"c", some "text", ⟨0, 0⟩, .none, true⟩], false, 0⟩
      = ⟨[], [], [⟨"c", some "text", ⟨0, 0⟩, .none, true⟩], false, 0⟩ :=
  C10_editable_focus_guard "i" (fun _ => "p")
    ⟨true, .items [⟨["image/png"]⟩], .ok "u" "t", ⟨0, 0, 1⟩, 800, 600⟩
    (some [⟨"image/png", some "f.png"⟩])
    ⟨[], [], [⟨"c", some "text", ⟨0, 0⟩, .none, true⟩], false, 0⟩ rfl

end Tersa
